import Mathlib

/-!
Verification of the simulated-annealing solver
(`infinigen/core/constraints/example_solver/annealing_testOptiP.py`).

The embedding models the solver's search-and-evaluation loop over an
abstract state type `σ`.  Machine floats are modelled as exact rationals
(the properties under study are exact algebraic identities).  The
evaluation engine (`evaluate.evaluate_problem` with a memo) is modelled
as a pure function `σ → EvalResult`, per its contract; memo evictions and
the other observable actions of the retry loop are recorded in an event
trace so that ordering properties can be stated.  The random draw of
`random.uniform(0, 1)` in `accept_move` is passed in explicitly.
-/

namespace Annealing

/-- An evaluation result: scalar loss plus violation count, the two
quantities the solver compares (`EvalResult.loss()` / `.viol_count()`). -/
structure EvalResult where
  loss : ℚ
  viol_count : ℚ
deriving DecidableEq, Repr

/-- The move protocol: `apply(state) -> bool` (modelled as returning the
post-apply state together with the success flag), `revert(state)`,
`accept(state)`. -/
structure Move (σ : Type) where
  apply : σ → σ × Bool
  revert : σ → σ
  accept : σ → σ

/-- Observable events of one `retry_attempt_proposals` run, in order:
pulling a candidate from the generator, calling `apply`, evicting memo
entries for the move (`eval_memo.evict_memo_for_move`), calling `revert`,
and evaluating (`self._move`). -/
inductive REvent where
  | pulled (i : Nat)
  | applied (i : Nat) (ok : Bool)
  | evicted (i : Nat)
  | reverted (i : Nat)
  | evaluated (i : Nat)
deriving DecidableEq, Repr

/-- Result of `retry_attempt_proposals`: the returned triple
`(move, result, retry)` — where `move` and `retry` are the Python local
variables, both initialised to `None` — plus the state after the run and
the event trace. -/
structure RetryOut (σ : Type) where
  move : Option (Move σ)
  result : Option EvalResult
  retry : Option Nat
  state : σ
  trace : List REvent

/-- The loop body of `retry_attempt_proposals` (lines 226-248).  Python's
`for retry, move in enumerate(move_gen)` pulls a candidate and its index;
the loop breaks when the index reaches `max_invalid_candidates` (the
candidate has been pulled but is not applied), returns on the first
successful `apply` after evicting memo entries and evaluating, and
otherwise evicts, reverts and continues.  On generator exhaustion the
`for`-`else` path returns the last bound `move` and `retry`.  The fuel
argument only bounds the recursion; `maxInv + 1 - idx` units always
suffice because the loop breaks at `idx = maxInv`. -/
def retryAux {σ : Type} (maxInv : Nat) (gen : Nat → Option (Move σ))
    (ev : σ → EvalResult) :
    Nat → Nat → Option (Move σ) → Option Nat → σ → RetryOut σ
  | 0, _idx, lm, lr, s => ⟨lm, none, lr, s, []⟩
  | fuel + 1, idx, lm, lr, s =>
    match gen idx with
    | none => ⟨lm, none, lr, s, []⟩
    | some m =>
      if idx = maxInv then
        ⟨some m, none, some idx, s, [REvent.pulled idx]⟩
      else
        let p := m.apply s
        if p.2 then
          ⟨some m, some (ev p.1), some idx, p.1,
            [REvent.pulled idx, REvent.applied idx true, REvent.evicted idx,
              REvent.evaluated idx]⟩
        else
          let rest := retryAux maxInv gen ev fuel (idx + 1) (some m) (some idx)
            (m.revert p.1)
          { rest with trace :=
              REvent.pulled idx :: REvent.applied idx false ::
                REvent.evicted idx :: REvent.reverted idx :: rest.trace }

/-- `retry_attempt_proposals(propose_func, ...)`: run the retry loop from
index 0 with `move = None`, `retry = None`. -/
def retry_attempt_proposals {σ : Type} (maxInv : Nat)
    (gen : Nat → Option (Move σ)) (ev : σ → EvalResult) (s : σ) : RetryOut σ :=
  retryAux maxInv gen ev (maxInv + 1) 0 none none s

/-- Number of candidates pulled from the generator in a trace. -/
def countPulled (tr : List REvent) : Nat :=
  (tr.filter fun e => match e with | REvent.pulled _ => true | _ => false).length

/-- Number of candidates on which `apply` was called in a trace. -/
def countApplied (tr : List REvent) : Nat :=
  (tr.filter fun e => match e with | REvent.applied _ _ => true | _ => false).length

/-- The event block a failed candidate contributes to the trace. -/
def failBlock (i : Nat) : List REvent :=
  [REvent.pulled i, REvent.applied i false, REvent.evicted i, REvent.reverted i]

/-- `failBlocksFrom i k`: the concatenated blocks of `k` consecutive
failed candidates starting at index `i`. -/
def failBlocksFrom : Nat → Nat → List REvent
  | _, 0 => []
  | i, k + 1 => failBlock i ++ failBlocksFrom (i + 1) k

/-- The candidate index an event refers to. -/
def eventIdx : REvent → Nat
  | REvent.pulled i => i
  | REvent.applied i _ => i
  | REvent.evicted i => i
  | REvent.reverted i => i
  | REvent.evaluated i => i

/-- The solver's scalar state: the demon-energy fields, configuration, and
per-run bookkeeping (`curr_iteration`, `curr_result`, `last_eval_result`).
The unused classical-temperature fields of the source are omitted: the
temperature path is commented out in `step` and `curr_temp` is dead code. -/
structure Solver where
  max_invalid_candidates : Nat
  initial_demon_energy : ℚ
  initial_demon_energy_max : ℚ
  reduction_factor : ℚ
  demon_energy : ℚ
  demon_energy_max : ℚ
  curr_iteration : Nat
  curr_result : Option EvalResult
  last_eval_result : Option EvalResult
deriving DecidableEq, Repr

/-- Constructor defaults of `SimulatedAnnealingSolver.__init__`: demon
energy fields start at their configured initial values. -/
def mkSolver (maxInv : Nat) (initE initM rf : ℚ) : Solver :=
  ⟨maxInv, initE, initM, rf, initE, initM, 0, none, none⟩

/-- `reset(max_iters)` (lines 109-135): zero the iteration counter, clear
the current result, reset the demon energy fields to their initial
values. -/
def Solver.reset (sol : Solver) : Solver :=
  { sol with
    curr_iteration := 0
    curr_result := none
    demon_energy := sol.initial_demon_energy
    demon_energy_max := sol.initial_demon_energy_max }

/-- `calculate_delta_energy` (lines 281-283). -/
def calculate_delta_energy (curr prop : EvalResult) : ℚ :=
  prop.loss - curr.loss

/-- The `result` dict built by `accept_move`: the energy fields are
snapshots taken before any update of `demon_energy`. -/
structure Acceptance where
  accept : Bool
  delta_energy : ℚ
  demon_energy : ℚ
  demon_energy_max : ℚ
deriving DecidableEq, Repr

/-- `accept_move(delta_energy, prop_result)` (lines 285-325).  `curr` is
`self.curr_result` and `draw` the value of `random.uniform(0, 1)`.
Checked in source order: hard-constraint dominance on the violation
difference, then the demon condition `demon_energy >= delta_energy or
delta_energy <= 0` (on which `demon_energy -= delta_energy`), then the 1%
random fallback. -/
def accept_move (sol : Solver) (curr : EvalResult) (delta : ℚ)
    (prop : EvalResult) (draw : ℚ) : Solver × Acceptance :=
  let viol_diff := prop.viol_count - curr.viol_count
  if 0 < viol_diff then
    (sol, ⟨false, delta, sol.demon_energy, sol.demon_energy_max⟩)
  else if viol_diff < 0 then
    (sol, ⟨true, delta, sol.demon_energy, sol.demon_energy_max⟩)
  else if delta ≤ sol.demon_energy ∨ delta ≤ 0 then
    ({ sol with demon_energy := sol.demon_energy - delta },
      ⟨true, delta, sol.demon_energy, sol.demon_energy_max⟩)
  else if draw < 1 / 100 then
    (sol, ⟨true, delta, sol.demon_energy, sol.demon_energy_max⟩)
  else
    (sol, ⟨false, delta, sol.demon_energy, sol.demon_energy_max⟩)

/-- `update_demon_energy_max` (lines 327-335): geometric decay of the
ceiling by the current iteration count, then clamp `demon_energy` down to
the new ceiling when it exceeds it. -/
def update_demon_energy_max (sol : Solver) : Solver :=
  let m := sol.initial_demon_energy_max * sol.reduction_factor ^ sol.curr_iteration
  { sol with
    demon_energy_max := m
    demon_energy := if m < sol.demon_energy then m else sol.demon_energy }

/-- The `accept_result` record `step` keeps for logging; `accept` is
`None` when no proposal produced a result. -/
structure AcceptRecord where
  accept : Option Bool
  delta_energy : ℚ
  demon_energy : ℚ
  demon_energy_max : ℚ
deriving DecidableEq, Repr

/-- The null-acceptance entry of `step` (lines 373-378). -/
def nullAcceptRecord : AcceptRecord := ⟨none, 0, 0, 0⟩

/-- The record for a decided move. -/
def recordOf (a : Acceptance) : AcceptRecord :=
  ⟨some a.accept, a.delta_energy, a.demon_energy, a.demon_energy_max⟩

/-- Placeholder move used only to destructure an `Option (Move σ)` that is
provably `some` on the paths where it is read. -/
def idMove {σ : Type} : Move σ :=
  ⟨fun s => (s, true), id, id⟩

/-- Result of one `step` call: updated solver, state, the acceptance
record, and the retry-loop output. -/
structure StepOut (σ : Type) where
  solver : Solver
  state : σ
  record : AcceptRecord
  retry : RetryOut σ

/-- The decision phase of `step` (lines 365-389): when the retry loop
produced no result keep the null record and touch nothing; otherwise
compute the delta energy, decide via `accept_move`, and on accept keep
the proposed result and finalise the move while on reject evict and
revert it.  Returns the solver, the state, and the acceptance record. -/
def step_decide {σ : Type} (sol1 : Solver) (curr : EvalResult)
    (out : RetryOut σ) (draw : ℚ) : Solver × σ × AcceptRecord :=
  match out.result with
  | none => (sol1, out.state, nullAcceptRecord)
  | some prop =>
    let delta := calculate_delta_energy curr prop
    let ar := accept_move sol1 curr delta prop draw
    if ar.2.accept then
      ({ ar.1 with curr_result := some prop, last_eval_result := some prop },
        (out.move.getD idMove).accept out.state, recordOf ar.2)
    else
      ({ ar.1 with last_eval_result := some prop },
        (out.move.getD idMove).revert out.state, recordOf ar.2)

/-- `step(consgraph, state, move_gen_func, filter_domain, iter)`
(lines 339-506), restricted to its state-relevant actions (logging,
stats, garbage collection and the progress queue have no effect on the
solver scalars or the scene state).  Seed `curr_result` on the first
call; run the retry loop; decide via `step_decide`; then decay the
energy ceiling and advance the iteration counter. -/
def step {σ : Type} (sol : Solver) (gen : Nat → Option (Move σ))
    (ev : σ → EvalResult) (draw : ℚ) (s : σ) : StepOut σ :=
  let curr := sol.curr_result.getD (ev s)
  let sol1 := { sol with curr_result := some curr }
  let out := retry_attempt_proposals sol1.max_invalid_candidates gen ev s
  let next := step_decide sol1 curr out draw
  let sol2 := update_demon_energy_max next.1
  ⟨{ sol2 with curr_iteration := sol2.curr_iteration + 1 }, next.2.1, next.2.2, out⟩

/-- Iterate `step` with per-iteration inputs (generator, evaluation
function, random draw). -/
def runSteps {σ : Type}
    (ins : Nat → (Nat → Option (Move σ)) × (σ → EvalResult) × ℚ) :
    Nat → Solver × σ → Solver × σ
  | 0, p => p
  | k + 1, p =>
    let q := runSteps ins k p
    let o := step q.1 (ins k).1 (ins k).2.1 (ins k).2.2 q.2
    (o.solver, o.state)

/-- `evaluate.evaluate_problem` restricted to what `validate_lazy_eval`
observes: constraint nodes are cache keys, each node contributes a
per-node loss, a memoized entry is reused verbatim when present, and the
aggregate loss is the sum over the traversed nodes. -/
def evaluate_problem (nodes : List Nat) (f : Nat → ℚ)
    (memo : Nat → Option ℚ) : ℚ :=
  (nodes.map (fun n => (memo n).getD (f n))).sum

/-- The nodes reported by `validate_lazy_eval`'s diagnostic loop
(lines 173-183): nodes whose key is present in `self.eval_memo` and whose
freshly computed value (`test_memo[key]`) differs from the lazy one. -/
def memo_out_of_sync (nodes : List Nat) (f : Nat → ℚ)
    (evalMemo : Nat → Option ℚ) : List Nat :=
  nodes.filter fun n =>
    match evalMemo n with
    | none => false
    | some lazyv => if f n = lazyv then false else true

/-- `validate_lazy_eval` (lines 156-184): recompute the evaluation with a
fresh empty memo (and the BVH cache disabled), return normally when the
recomputed loss equals the incremental one, and otherwise raise
`ValueError` carrying both losses after reporting every out-of-sync memo
entry.  The raised error is modelled as `Except.error` holding the
reported node list and the two losses. -/
def validate_lazy_eval (nodes : List Nat) (f : Nat → ℚ)
    (evalMemo : Nat → Option ℚ) (propLoss : ℚ) :
    Except (List Nat × ℚ × ℚ) Unit :=
  let realLoss := evaluate_problem nodes f (fun _ => none)
  if realLoss = propLoss then Except.ok ()
  else Except.error (memo_out_of_sync nodes f evalMemo, realLoss, propLoss)

/-! ## Retry-loop lemmas -/

/-- A move whose `apply` always fails and leaves the state unchanged. -/
def failMove : Move Nat :=
  ⟨fun s => (s, false), id, id⟩

/-- A generator yielding exactly three unrealizable moves, then exhausting. -/
def gen3 : Nat → Option (Move Nat) :=
  fun i => if i < 3 then some failMove else none

/-- An inexhaustible generator of unrealizable moves. -/
def genFailStream : Nat → Option (Move Nat) :=
  fun _ => some failMove

/-- Unfolding equation for one loop iteration: the generator is
exhausted. -/
theorem retryAux_none {σ : Type} {maxInv : Nat} {gen : Nat → Option (Move σ)}
    {ev : σ → EvalResult} {fuel idx : Nat} {lm : Option (Move σ)}
    {lr : Option Nat} {s : σ} (hg : gen idx = none) :
    retryAux maxInv gen ev (fuel + 1) idx lm lr s = ⟨lm, none, lr, s, []⟩ := by
  rw [retryAux, hg]

/-- Unfolding equation: the pulled candidate hits the retry cap and the
loop breaks before applying it. -/
theorem retryAux_break {σ : Type} {maxInv : Nat} {gen : Nat → Option (Move σ)}
    {ev : σ → EvalResult} {fuel idx : Nat} {lm : Option (Move σ)}
    {lr : Option Nat} {s : σ} {m : Move σ} (hg : gen idx = some m)
    (hmax : idx = maxInv) :
    retryAux maxInv gen ev (fuel + 1) idx lm lr s
      = ⟨some m, none, some idx, s, [REvent.pulled idx]⟩ := by
  rw [retryAux, hg]
  simp [hmax]

/-- Unfolding equation: the pulled candidate applies successfully, so the
loop evicts, evaluates and returns. -/
theorem retryAux_success {σ : Type} {maxInv : Nat} {gen : Nat → Option (Move σ)}
    {ev : σ → EvalResult} {fuel idx : Nat} {lm : Option (Move σ)}
    {lr : Option Nat} {s : σ} {m : Move σ} (hg : gen idx = some m)
    (hmax : idx ≠ maxInv) (hs : (m.apply s).2 = true) :
    retryAux maxInv gen ev (fuel + 1) idx lm lr s
      = ⟨some m, some (ev (m.apply s).1), some idx, (m.apply s).1,
          [REvent.pulled idx, REvent.applied idx true, REvent.evicted idx,
            REvent.evaluated idx]⟩ := by
  rw [retryAux, hg]
  simp [hmax, hs]

/-- Unfolding equation: the pulled candidate fails to apply, so the loop
evicts, reverts and continues with the next index. -/
theorem retryAux_fail {σ : Type} {maxInv : Nat} {gen : Nat → Option (Move σ)}
    {ev : σ → EvalResult} {fuel idx : Nat} {lm : Option (Move σ)}
    {lr : Option Nat} {s : σ} {m : Move σ} (hg : gen idx = some m)
    (hmax : idx ≠ maxInv) (hs : (m.apply s).2 = false) :
    retryAux maxInv gen ev (fuel + 1) idx lm lr s
      = ⟨(retryAux maxInv gen ev fuel (idx + 1) (some m) (some idx)
            (m.revert (m.apply s).1)).move,
          (retryAux maxInv gen ev fuel (idx + 1) (some m) (some idx)
            (m.revert (m.apply s).1)).result,
          (retryAux maxInv gen ev fuel (idx + 1) (some m) (some idx)
            (m.revert (m.apply s).1)).retry,
          (retryAux maxInv gen ev fuel (idx + 1) (some m) (some idx)
            (m.revert (m.apply s).1)).state,
          REvent.pulled idx :: REvent.applied idx false :: REvent.evicted idx ::
            REvent.reverted idx ::
            (retryAux maxInv gen ev fuel (idx + 1) (some m) (some idx)
              (m.revert (m.apply s).1)).trace⟩ := by
  rw [retryAux, hg]
  simp [hmax, hs]

/-- Exhaustion run of the retry loop: when the generator yields moves at
exactly the indices below `k ≤ maxInv` and every `apply` fails, the loop
walks all `k` candidates and falls through the `for`-`else` path, leaving
`result = None` while `move` and `retry` hold the last pulled candidate
and its index; the trace is the concatenation of the per-candidate
fail blocks. -/
theorem retryAux_exhaust {σ : Type} (maxInv k : Nat)
    (gen : Nat → Option (Move σ)) (ev : σ → EvalResult)
    (hsome : ∀ i, i < k → (gen i).isSome = true)
    (hnone : gen k = none)
    (hfail : ∀ i m s, gen i = some m → (m.apply s).2 = false)
    (hk : k ≤ maxInv) :
    ∀ fuel idx lm lr s, idx ≤ k → k - idx < fuel →
      (retryAux maxInv gen ev fuel idx lm lr s).result = none ∧
      (retryAux maxInv gen ev fuel idx lm lr s).retry
        = (if idx = k then lr else some (k - 1)) ∧
      (retryAux maxInv gen ev fuel idx lm lr s).move
        = (if idx = k then lm else gen (k - 1)) ∧
      (retryAux maxInv gen ev fuel idx lm lr s).trace
        = failBlocksFrom idx (k - idx) := by
  intro fuel
  induction fuel with
  | zero =>
    intro idx lm lr s hle hlt
    omega
  | succ fuel ih =>
    intro idx lm lr s hle hlt
    by_cases hik : idx = k
    · subst hik
      rw [retryAux_none hnone]
      simp [failBlocksFrom]
    · have hidxk : idx < k := lt_of_le_of_ne hle hik
      obtain ⟨m, hm⟩ := Option.isSome_iff_exists.mp (hsome idx hidxk)
      have hmax : idx ≠ maxInv := by omega
      have happ : (m.apply s).2 = false := hfail idx m s hm
      have hrec := ih (idx + 1) (some m) (some idx) (m.revert (m.apply s).1)
        (by omega) (by omega)
      have hkk : k - idx = (k - (idx + 1)) + 1 := by omega
      rw [retryAux_fail hm hmax happ]
      refine ⟨hrec.1, ?_, ?_, ?_⟩
      · show (retryAux maxInv gen ev fuel (idx + 1) (some m) (some idx)
            (m.revert (m.apply s).1)).retry = _
        rw [hrec.2.1, if_neg hik]
        by_cases h1 : idx + 1 = k
        · rw [if_pos h1]
          congr 1
          omega
        · rw [if_neg h1]
      · show (retryAux maxInv gen ev fuel (idx + 1) (some m) (some idx)
            (m.revert (m.apply s).1)).move = _
        rw [hrec.2.2.1, if_neg hik]
        by_cases h1 : idx + 1 = k
        · rw [if_pos h1, ← hm]
          congr 1
          omega
        · rw [if_neg h1]
      · show REvent.pulled idx :: REvent.applied idx false :: REvent.evicted idx ::
            REvent.reverted idx :: (retryAux maxInv gen ev fuel (idx + 1) (some m)
              (some idx) (m.revert (m.apply s).1)).trace = _
        rw [hrec.2.2.2, hkk]
        simp [failBlocksFrom, failBlock]

/-- Every event in a trace produced from index `idx` onwards refers to a
candidate index at least `idx`. -/
theorem retryAux_trace_idx_ge {σ : Type} (maxInv : Nat)
    (gen : Nat → Option (Move σ)) (ev : σ → EvalResult) :
    ∀ fuel idx lm lr s e,
      e ∈ (retryAux maxInv gen ev fuel idx lm lr s).trace → idx ≤ eventIdx e := by
  intro fuel
  induction fuel with
  | zero =>
    intro idx lm lr s e he
    simp [retryAux] at he
  | succ fuel ih =>
    intro idx lm lr s e he
    cases hg : gen idx with
    | none =>
      rw [retryAux_none hg] at he
      simp at he
    | some m =>
      by_cases hmax : idx = maxInv
      · rw [retryAux_break hg hmax] at he
        simp at he
        subst he
        simp [eventIdx]
      · cases hs : (m.apply s).2 with
        | true =>
          rw [retryAux_success hg hmax hs] at he
          simp at he
          rcases he with h | h | h | h <;> subst h <;> simp [eventIdx]
        | false =>
          rw [retryAux_fail hg hmax hs] at he
          simp only [List.mem_cons] at he
          rcases he with h | h | h | h | h
          · subst h; simp [eventIdx]
          · subst h; simp [eventIdx]
          · subst h; simp [eventIdx]
          · subst h; simp [eventIdx]
          · have := ih (idx + 1) (some m) (some idx) (m.revert (m.apply s).1) e h
            omega

/-! ## Retry-loop claims -/

/-- Counterexample to C1 as stated: with a proposal function yielding
exactly 3 unrealizable moves and then exhausting, and
`max_invalid_candidates = 5`, the loop returns the last pulled move (not
`None`) and retry index 2 (not 3); only the result component is `None`. -/
theorem retry_attempt_proposals_exhaust_cex :
    (retry_attempt_proposals 5 gen3 (fun _ => ⟨0, 0⟩) 0).move.isSome = true ∧
    (retry_attempt_proposals 5 gen3 (fun _ => ⟨0, 0⟩) 0).retry = some 2 ∧
    (retry_attempt_proposals 5 gen3 (fun _ => ⟨0, 0⟩) 0).result = none := by
  decide

/-- Claim C1 (amended): if the generator yields moves exactly at the
indices below `k` (with `1 ≤ k ≤ max_invalid_candidates`) and every
`apply` fails, the loop exhausts its candidates and returns the triple
`(last pulled move, None, k - 1)` — the move and retry components hold
the last candidate and its 0-based index, and only the evaluation result
is `None`. -/
theorem retry_attempt_proposals_exhaust {σ : Type} (maxInv k : Nat)
    (gen : Nat → Option (Move σ)) (ev : σ → EvalResult) (s : σ)
    (hsome : ∀ i, i < k → (gen i).isSome = true)
    (hnone : gen k = none)
    (hfail : ∀ i m t, gen i = some m → (m.apply t).2 = false)
    (hk1 : 1 ≤ k) (hk : k ≤ maxInv) :
    (retry_attempt_proposals maxInv gen ev s).result = none ∧
    (retry_attempt_proposals maxInv gen ev s).retry = some (k - 1) ∧
    (retry_attempt_proposals maxInv gen ev s).move = gen (k - 1) := by
  have h := retryAux_exhaust maxInv k gen ev hsome hnone hfail hk
    (maxInv + 1) 0 none none s (by omega) (by omega)
  have h0 : (0 : Nat) ≠ k := by omega
  rw [retry_attempt_proposals]
  exact ⟨h.1, by rw [h.2.1, if_neg h0], by rw [h.2.2.1, if_neg h0]⟩

/-- Witness for C1's amended statement: three unrealizable moves and a
cap of 5 give result `None`, retry index 2, and the last pulled move. -/
theorem retry_attempt_proposals_exhaust_witness :
    (retry_attempt_proposals 5 gen3 (fun _ => ⟨0, 0⟩) 1).result = none ∧
    (retry_attempt_proposals 5 gen3 (fun _ => ⟨0, 0⟩) 1).retry = some 2 ∧
    (retry_attempt_proposals 5 gen3 (fun _ => ⟨0, 0⟩) 1).move = gen3 2 := by
  have hfail : ∀ i (m : Move Nat) (t : Nat), gen3 i = some m →
      (m.apply t).2 = false := by
    intro i m t h
    unfold gen3 at h
    by_cases hi : i < 3
    · rw [if_pos hi] at h
      injection h with h2
      subst h2
      rfl
    · rw [if_neg hi] at h
      exact absurd h (by simp)
  exact retry_attempt_proposals_exhaust 5 3 gen3 (fun _ => ⟨0, 0⟩) 1
    (by decide) (by rfl) hfail (by norm_num) (by norm_num)

/-- Counterexample to C5 as stated: with `max_invalid_candidates = 1` and
an inexhaustible generator of unrealizable moves, one call pulls 2
candidates from the generator — more than `max_invalid_candidates`. -/
theorem retry_pull_bound_cex :
    countPulled (retry_attempt_proposals 1 genFailStream (fun _ => ⟨0, 0⟩) 0).trace
        = 2 ∧
    ¬ countPulled (retry_attempt_proposals 1 genFailStream (fun _ => ⟨0, 0⟩) 0).trace
        ≤ 1 := by
  decide

/-- Auxiliary bound: a run starting at index `idx ≤ maxInv` with `fuel`
units pulls at most `fuel` candidates and applies at most
`maxInv - idx` of them. -/
theorem retryAux_count_bound {σ : Type} (maxInv : Nat)
    (gen : Nat → Option (Move σ)) (ev : σ → EvalResult) :
    ∀ fuel idx lm lr s, idx ≤ maxInv →
      countPulled (retryAux maxInv gen ev fuel idx lm lr s).trace ≤ fuel ∧
      countApplied (retryAux maxInv gen ev fuel idx lm lr s).trace
        ≤ maxInv - idx := by
  intro fuel
  induction fuel with
  | zero =>
    intro idx lm lr s hle
    simp [retryAux, countPulled, countApplied]
  | succ fuel ih =>
    intro idx lm lr s hle
    cases hg : gen idx with
    | none =>
      rw [retryAux_none hg]
      simp [countPulled, countApplied]
    | some m =>
      by_cases hmax : idx = maxInv
      · rw [retryAux_break hg hmax]
        simp [countPulled, countApplied, List.filter]
      · have hlt : idx < maxInv := lt_of_le_of_ne hle hmax
        cases hs : (m.apply s).2 with
        | true =>
          rw [retryAux_success hg hmax hs]
          simp only [countPulled, countApplied, List.filter, List.length_cons,
            List.length_nil]
          omega
        | false =>
          rw [retryAux_fail hg hmax hs]
          have := ih (idx + 1) (some m) (some idx) (m.revert (m.apply s).1)
            (by omega)
          simp only [countPulled, countApplied, List.filter,
            List.length_cons] at *
          omega

/-- Claim C5 (amended): one call to the retry loop pulls at most
`max_invalid_candidates + 1` candidates from the generator (the
candidate pulled at the cap index is discarded unapplied) and applies —
and hence evaluates — at most `max_invalid_candidates` of them, so the
loop terminates within that bound even on an infinite generator. -/
theorem retry_attempt_proposals_bound {σ : Type} (maxInv : Nat)
    (gen : Nat → Option (Move σ)) (ev : σ → EvalResult) (s : σ) :
    countPulled (retry_attempt_proposals maxInv gen ev s).trace ≤ maxInv + 1 ∧
    countApplied (retry_attempt_proposals maxInv gen ev s).trace ≤ maxInv := by
  have h := retryAux_count_bound maxInv gen ev (maxInv + 1) 0 none none s
    (by omega)
  rw [retry_attempt_proposals]
  exact ⟨h.1, by simpa using h.2⟩

/-- Failed candidates are handled in order: after a failed `apply` at
index `i` the trace shows the memo eviction, then the revert, and only
then (if at all) the pull of candidate `i + 1`. -/
theorem retryAux_failed_order {σ : Type} (maxInv : Nat)
    (gen : Nat → Option (Move σ)) (ev : σ → EvalResult) :
    ∀ fuel idx lm lr s i,
      REvent.applied i false ∈ (retryAux maxInv gen ev fuel idx lm lr s).trace →
      List.Sublist [REvent.applied i false, REvent.evicted i, REvent.reverted i,
          REvent.pulled (i + 1)] (retryAux maxInv gen ev fuel idx lm lr s).trace ∨
      (List.Sublist [REvent.applied i false, REvent.evicted i, REvent.reverted i]
          (retryAux maxInv gen ev fuel idx lm lr s).trace ∧
        REvent.pulled (i + 1) ∉ (retryAux maxInv gen ev fuel idx lm lr s).trace) := by
  intro fuel
  induction fuel with
  | zero =>
    intro idx lm lr s i hmem
    simp [retryAux] at hmem
  | succ fuel ih =>
    intro idx lm lr s i hmem
    cases hg : gen idx with
    | none =>
      rw [retryAux_none hg] at hmem ⊢
      simp at hmem
    | some m =>
      by_cases hmax : idx = maxInv
      · rw [retryAux_break hg hmax] at hmem ⊢
        simp at hmem
      · cases hs : (m.apply s).2 with
        | true =>
          rw [retryAux_success hg hmax hs] at hmem ⊢
          simp at hmem
        | false =>
          rw [retryAux_fail hg hmax hs] at hmem ⊢
          simp only [List.mem_cons] at hmem
          rcases hmem with h | h | h | h | h
          · exact absurd h (by simp)
          · have hi : i = idx := by
              injection h with h1 h2
            subst hi
            by_cases hp : REvent.pulled (i + 1)
                ∈ (retryAux maxInv gen ev fuel (i + 1) (some m) (some i)
                  (m.revert (m.apply s).1)).trace
            · exact Or.inl (List.Sublist.cons _ (List.Sublist.cons₂ _
                (List.Sublist.cons₂ _ (List.Sublist.cons₂ _
                  (List.singleton_sublist.mpr hp)))))
            · refine Or.inr ⟨List.Sublist.cons _ (List.Sublist.cons₂ _
                (List.Sublist.cons₂ _ (List.Sublist.cons₂ _
                  (List.nil_sublist _)))), ?_⟩
              simp only [List.mem_cons]
              push_neg
              refine ⟨by simp, by simp, by simp, by simp, hp⟩
          · exact absurd h (by simp)
          · exact absurd h (by simp)
          · have hge := retryAux_trace_idx_ge maxInv gen ev fuel (idx + 1)
              (some m) (some idx) (m.revert (m.apply s).1)
              (REvent.applied i false) h
            simp only [eventIdx] at hge
            rcases ih (idx + 1) (some m) (some idx) (m.revert (m.apply s).1) i h
              with hsub | ⟨hsub, hnp⟩
            · exact Or.inl ((((hsub.cons _).cons _).cons _).cons _)
            · refine Or.inr ⟨(((hsub.cons _).cons _).cons _).cons _, ?_⟩
              simp only [List.mem_cons]
              push_neg
              exact ⟨by simp; omega, by simp, by simp, by simp, hnp⟩

/-- Claim C9: in any run of `retry_attempt_proposals`, every candidate
whose `apply` returned false has its memo entries evicted and is then
reverted, both before the next candidate is pulled from the generator —
so `Move` implementations must tolerate `revert` after a failed
`apply`. -/
theorem retry_failed_evict_revert_order {σ : Type} (maxInv : Nat)
    (gen : Nat → Option (Move σ)) (ev : σ → EvalResult) (s : σ) (i : Nat)
    (hmem : REvent.applied i false
        ∈ (retry_attempt_proposals maxInv gen ev s).trace) :
    List.Sublist [REvent.applied i false, REvent.evicted i, REvent.reverted i,
        REvent.pulled (i + 1)] (retry_attempt_proposals maxInv gen ev s).trace ∨
    (List.Sublist [REvent.applied i false, REvent.evicted i, REvent.reverted i]
        (retry_attempt_proposals maxInv gen ev s).trace ∧
      REvent.pulled (i + 1) ∉ (retry_attempt_proposals maxInv gen ev s).trace) :=
  retryAux_failed_order maxInv gen ev (maxInv + 1) 0 none none s i hmem

/-- Witness for C9: in the three-failing-moves run, candidate 0 fails and
the eviction, revert and next pull appear in order in the trace. -/
theorem retry_failed_evict_revert_order_witness :
    List.Sublist [REvent.applied 0 false, REvent.evicted 0, REvent.reverted 0,
        REvent.pulled 1] (retry_attempt_proposals 5 gen3 (fun _ => ⟨0, 0⟩) 0).trace ∨
    (List.Sublist [REvent.applied 0 false, REvent.evicted 0, REvent.reverted 0]
        (retry_attempt_proposals 5 gen3 (fun _ => ⟨0, 0⟩) 0).trace ∧
      REvent.pulled 1 ∉ (retry_attempt_proposals 5 gen3 (fun _ => ⟨0, 0⟩) 0).trace) :=
  retry_failed_evict_revert_order 5 gen3 (fun _ => ⟨0, 0⟩) 0 0 (by decide)

/-! ## Acceptance-rule claims -/

/-- Claim C4: regardless of losses, energies and the random draw, if the
proposed violation count strictly exceeds the current one `accept_move`
rejects, and if it is strictly smaller `accept_move` accepts
unconditionally. -/
theorem accept_move_viol_monotone (sol : Solver) (curr prop : EvalResult)
    (delta draw : ℚ) :
    (curr.viol_count < prop.viol_count →
      (accept_move sol curr delta prop draw).2.accept = false) ∧
    (prop.viol_count < curr.viol_count →
      (accept_move sol curr delta prop draw).2.accept = true) := by
  refine ⟨fun h => ?_, fun h => ?_⟩
  · simp only [accept_move]
    rw [if_pos (by linarith : (0:ℚ) < prop.viol_count - curr.viol_count)]
  · simp only [accept_move]
    rw [if_neg (by simp; linarith : ¬ (0:ℚ) < prop.viol_count - curr.viol_count),
      if_pos (by linarith : prop.viol_count - curr.viol_count < 0)]

/-- Witness for C4: current violation count 2, proposed 1, with arbitrary
losses (delta 999) and energies, yields accept. -/
theorem accept_move_viol_monotone_witness :
    (accept_move (mkSolver 5 100 200 (17/20)) ⟨10, 2⟩ 999 ⟨1000, 1⟩ (1/2)).2.accept
      = true :=
  (accept_move_viol_monotone (mkSolver 5 100 200 (17/20)) ⟨10, 2⟩ ⟨1000, 1⟩
    999 (1/2)).2 (by norm_num)

/-- Counterexample to C2 as stated: with equal violation counts,
demon energy 100, delta 140 and a random draw below the 1% threshold,
`accept_move` accepts even though neither `demon_energy >= delta_energy`
nor `delta_energy <= 0` holds, and `demon_energy` stays 100 rather than
becoming `100 - 140`. -/
theorem accept_move_equal_viol_cex :
    (accept_move (mkSolver 5 100 200 (17/20)) ⟨10, 1⟩ 140 ⟨150, 1⟩ (1/200)).2.accept
        = true ∧
    ¬ ((140:ℚ) ≤ (mkSolver 5 100 200 (17/20)).demon_energy ∨ (140:ℚ) ≤ 0) ∧
    (accept_move (mkSolver 5 100 200 (17/20)) ⟨10, 1⟩ 140 ⟨150, 1⟩ (1/200)).1.demon_energy
        = 100 ∧
    ((100:ℚ) ≠ 100 - 140) := by
  refine ⟨?_, by norm_num [mkSolver], ?_, by norm_num⟩ <;>
    norm_num [accept_move, mkSolver]

/-- Claim C2 (amended): with equal violation counts and a random draw at
or above the 1% fallback threshold, `accept_move` accepts exactly when
`demon_energy >= delta_energy` or `delta_energy <= 0`, and on acceptance
the new demon energy is exactly the old one minus `delta_energy`. -/
theorem accept_move_equal_viol (sol : Solver) (curr prop : EvalResult)
    (delta draw : ℚ) (hviol : prop.viol_count = curr.viol_count)
    (hdraw : 1/100 ≤ draw) :
    ((accept_move sol curr delta prop draw).2.accept = true ↔
      (delta ≤ sol.demon_energy ∨ delta ≤ 0)) ∧
    ((accept_move sol curr delta prop draw).2.accept = true →
      (accept_move sol curr delta prop draw).1.demon_energy
        = sol.demon_energy - delta) := by
  have h0 : prop.viol_count - curr.viol_count = 0 := by rw [hviol]; ring
  have hnd : ¬ draw < (100:ℚ)⁻¹ := by
    rw [← one_div]
    exact not_lt.mpr hdraw
  by_cases hc : delta ≤ sol.demon_energy ∨ delta ≤ 0
  · simp [accept_move, h0, hc]
  · simp [accept_move, h0, hc, hnd]

/-- Witness for C2: demon energy 100, current loss 10, proposed loss 9
(delta -1), equal violation counts, draw 1/2: accepted, and the demon
energy becomes 101. -/
theorem accept_move_equal_viol_witness :
    (accept_move (mkSolver 5 100 200 (17/20)) ⟨10, 1⟩ (-1) ⟨9, 1⟩ (1/2)).2.accept
        = true ∧
    (accept_move (mkSolver 5 100 200 (17/20)) ⟨10, 1⟩ (-1) ⟨9, 1⟩ (1/2)).1.demon_energy
        = 101 := by
  have h := accept_move_equal_viol (mkSolver 5 100 200 (17/20)) ⟨10, 1⟩ ⟨9, 1⟩
    (-1) (1/2) rfl (by norm_num)
  have ha : (accept_move (mkSolver 5 100 200 (17/20)) ⟨10, 1⟩ (-1) ⟨9, 1⟩ (1/2)).2.accept
      = true := h.1.mpr (by norm_num [mkSolver])
  refine ⟨ha, ?_⟩
  rw [h.2 ha]
  norm_num [mkSolver]

/-- Claim C7: with equal violation counts, a nonnegative demon energy
exceeded by `delta_energy`, and a random draw at or above the 1%
threshold, `accept_move` rejects and leaves the whole solver state (in
particular `demon_energy`) unchanged. -/
theorem accept_move_reject_frame (sol : Solver) (curr prop : EvalResult)
    (delta draw : ℚ) (hviol : prop.viol_count = curr.viol_count)
    (hd : sol.demon_energy < delta) (hpos : 0 ≤ sol.demon_energy)
    (hdraw : 1/100 ≤ draw) :
    (accept_move sol curr delta prop draw).2.accept = false ∧
    (accept_move sol curr delta prop draw).1 = sol := by
  have h0 : prop.viol_count - curr.viol_count = 0 := by rw [hviol]; ring
  have hc : ¬ (delta ≤ sol.demon_energy ∨ delta ≤ 0) := by
    push_neg
    exact ⟨hd, by linarith⟩
  have hnd : ¬ draw < (100:ℚ)⁻¹ := by
    rw [← one_div]
    exact not_lt.mpr hdraw
  simp [accept_move, h0, hc, hnd]

/-- Witness for C7: demon energy 100, delta 140, draw 1/2: rejected with
the solver untouched. -/
theorem accept_move_reject_frame_witness :
    (accept_move (mkSolver 5 100 200 (17/20)) ⟨10, 1⟩ 140 ⟨150, 1⟩ (1/2)).2.accept
        = false ∧
    (accept_move (mkSolver 5 100 200 (17/20)) ⟨10, 1⟩ 140 ⟨150, 1⟩ (1/2)).1
        = mkSolver 5 100 200 (17/20) :=
  accept_move_reject_frame (mkSolver 5 100 200 (17/20)) ⟨10, 1⟩ ⟨150, 1⟩ 140 (1/2)
    rfl (by norm_num [mkSolver]) (by norm_num [mkSolver]) (by norm_num)

/-! ## Validation-mode claim -/

/-- Claim C8: `validate_lazy_eval` returns normally exactly when the
recomputation without the shared memo yields the same loss as the
incremental result, and on any mismatch it raises an error carrying the
out-of-sync memo entries together with both loss values. -/
theorem validate_lazy_eval_spec (nodes : List Nat) (f : Nat → ℚ)
    (evalMemo : Nat → Option ℚ) (propLoss : ℚ) :
    (validate_lazy_eval nodes f evalMemo propLoss = Except.ok () ↔
      evaluate_problem nodes f (fun _ => none) = propLoss) ∧
    (evaluate_problem nodes f (fun _ => none) ≠ propLoss →
      validate_lazy_eval nodes f evalMemo propLoss =
        Except.error (memo_out_of_sync nodes f evalMemo,
          evaluate_problem nodes f (fun _ => none), propLoss)) := by
  by_cases h : evaluate_problem nodes f (fun _ => none) = propLoss <;>
    simp [validate_lazy_eval, h]

/-- Witness for C8: one node whose fresh value 1 disagrees with both the
memoized value 2 and the incremental loss 0: the validation raises,
reporting the node and both losses. -/
theorem validate_lazy_eval_spec_witness :
    validate_lazy_eval [0] (fun _ => 1) (fun _ => some 2) 0 =
      Except.error ([0], 1, 0) := by
  have h := (validate_lazy_eval_spec [0] (fun _ => 1) (fun _ => some 2) 0).2
    (by norm_num [evaluate_problem])
  simpa [memo_out_of_sync, evaluate_problem] using h

/-! ## Orchestrator step lemmas -/

/-- Unfolding equation for `step_decide` when the retry loop produced no
result. -/
theorem step_decide_none {σ : Type} {sol1 : Solver} {curr : EvalResult}
    {out : RetryOut σ} {draw : ℚ} (h : out.result = none) :
    step_decide sol1 curr out draw = (sol1, out.state, nullAcceptRecord) := by
  unfold step_decide
  rw [h]

/-- Unfolding equation for `step_decide` when the retry loop returned a
proposed evaluation result. -/
theorem step_decide_some {σ : Type} {sol1 : Solver} {curr : EvalResult}
    {out : RetryOut σ} {draw : ℚ} {prop : EvalResult}
    (h : out.result = some prop) :
    step_decide sol1 curr out draw =
      (if (accept_move sol1 curr (calculate_delta_energy curr prop) prop draw).2.accept then
        ({ (accept_move sol1 curr (calculate_delta_energy curr prop) prop draw).1 with
            curr_result := some prop, last_eval_result := some prop },
          (out.move.getD idMove).accept out.state,
          recordOf (accept_move sol1 curr (calculate_delta_energy curr prop) prop draw).2)
      else
        ({ (accept_move sol1 curr (calculate_delta_energy curr prop) prop draw).1 with
            last_eval_result := some prop },
          (out.move.getD idMove).revert out.state,
          recordOf (accept_move sol1 curr (calculate_delta_energy curr prop) prop draw).2)) := by
  unfold step_decide
  rw [h]

/-- `accept_move` returns either the unchanged solver or the solver with
only `demon_energy` decremented by the delta. -/
theorem accept_move_solver_cases (sol : Solver) (curr prop : EvalResult)
    (delta draw : ℚ) :
    (accept_move sol curr delta prop draw).1 = sol ∨
    (accept_move sol curr delta prop draw).1
      = { sol with demon_energy := sol.demon_energy - delta } := by
  by_cases h1 : 0 < prop.viol_count - curr.viol_count
  · left
    simp [accept_move, h1]
  · by_cases h2 : prop.viol_count - curr.viol_count < 0
    · left
      simp [accept_move, h1, h2]
    · by_cases h3 : delta ≤ sol.demon_energy ∨ delta ≤ 0
      · right
        simp [accept_move, h1, h2, h3]
      · left
        simp only [accept_move, h1, h2, h3, if_false, ite_false]
        split_ifs <;> rfl

/-- The decision phase never touches the iteration counter, the
configured ceiling, or the reduction factor. -/
theorem step_decide_solver_fields {σ : Type} (sol1 : Solver) (curr : EvalResult)
    (out : RetryOut σ) (draw : ℚ) :
    (step_decide sol1 curr out draw).1.curr_iteration = sol1.curr_iteration ∧
    (step_decide sol1 curr out draw).1.initial_demon_energy_max
      = sol1.initial_demon_energy_max ∧
    (step_decide sol1 curr out draw).1.reduction_factor
      = sol1.reduction_factor := by
  cases hres : out.result with
  | none =>
    rw [step_decide_none hres]
    exact ⟨rfl, rfl, rfl⟩
  | some prop =>
    rw [step_decide_some hres]
    by_cases hb : (accept_move sol1 curr (calculate_delta_energy curr prop) prop
        draw).2.accept
    · rw [if_pos hb]
      rcases accept_move_solver_cases sol1 curr prop
          (calculate_delta_energy curr prop) draw with h | h <;>
        rw [h] <;> exact ⟨rfl, rfl, rfl⟩
    · rw [if_neg hb]
      rcases accept_move_solver_cases sol1 curr prop
          (calculate_delta_energy curr prop) draw with h | h <;>
        rw [h] <;> exact ⟨rfl, rfl, rfl⟩

/-- After `update_demon_energy_max` the demon energy never exceeds the
new ceiling. -/
theorem update_demon_energy_max_le (sol : Solver) :
    (update_demon_energy_max sol).demon_energy
      ≤ (update_demon_energy_max sol).demon_energy_max := by
  show (if sol.initial_demon_energy_max * sol.reduction_factor ^ sol.curr_iteration
        < sol.demon_energy
      then sol.initial_demon_energy_max * sol.reduction_factor ^ sol.curr_iteration
      else sol.demon_energy)
    ≤ sol.initial_demon_energy_max * sol.reduction_factor ^ sol.curr_iteration
  split_ifs with h
  · exact le_refl _
  · exact le_of_not_lt h

/-- `step` in terms of its phases (definitional). -/
theorem step_solver_eq {σ : Type} (sol : Solver) (gen : Nat → Option (Move σ))
    (ev : σ → EvalResult) (draw : ℚ) (s : σ) :
    (step sol gen ev draw s).solver =
      { update_demon_energy_max
          (step_decide { sol with curr_result := some (sol.curr_result.getD (ev s)) }
            (sol.curr_result.getD (ev s))
            (retry_attempt_proposals sol.max_invalid_candidates gen ev s) draw).1 with
        curr_iteration :=
          (update_demon_energy_max
            (step_decide { sol with curr_result := some (sol.curr_result.getD (ev s)) }
              (sol.curr_result.getD (ev s))
              (retry_attempt_proposals sol.max_invalid_candidates gen ev s) draw).1).curr_iteration
            + 1 } :=
  rfl

/-- The state returned by `step` is the one chosen by the decision
phase (definitional). -/
theorem step_state_eq {σ : Type} (sol : Solver) (gen : Nat → Option (Move σ))
    (ev : σ → EvalResult) (draw : ℚ) (s : σ) :
    (step sol gen ev draw s).state =
      (step_decide { sol with curr_result := some (sol.curr_result.getD (ev s)) }
        (sol.curr_result.getD (ev s))
        (retry_attempt_proposals sol.max_invalid_candidates gen ev s) draw).2.1 :=
  rfl

/-- The acceptance record returned by `step` (definitional). -/
theorem step_record_eq {σ : Type} (sol : Solver) (gen : Nat → Option (Move σ))
    (ev : σ → EvalResult) (draw : ℚ) (s : σ) :
    (step sol gen ev draw s).record =
      (step_decide { sol with curr_result := some (sol.curr_result.getD (ev s)) }
        (sol.curr_result.getD (ev s))
        (retry_attempt_proposals sol.max_invalid_candidates gen ev s) draw).2.2 :=
  rfl

/-- One `step` call advances the iteration counter, preserves the
configuration, sets the ceiling by the decay law at the pre-increment
iteration count, and leaves the demon energy at or below the ceiling. -/
theorem step_solver_fields {σ : Type} (sol : Solver) (gen : Nat → Option (Move σ))
    (ev : σ → EvalResult) (draw : ℚ) (s : σ) :
    (step sol gen ev draw s).solver.curr_iteration = sol.curr_iteration + 1 ∧
    (step sol gen ev draw s).solver.initial_demon_energy_max
      = sol.initial_demon_energy_max ∧
    (step sol gen ev draw s).solver.reduction_factor = sol.reduction_factor ∧
    (step sol gen ev draw s).solver.demon_energy_max
      = sol.initial_demon_energy_max * sol.reduction_factor ^ sol.curr_iteration ∧
    (step sol gen ev draw s).solver.demon_energy
      ≤ (step sol gen ev draw s).solver.demon_energy_max := by
  rw [step_solver_eq]
  have hf := step_decide_solver_fields
    { sol with curr_result := some (sol.curr_result.getD (ev s)) }
    (sol.curr_result.getD (ev s))
    (retry_attempt_proposals sol.max_invalid_candidates gen ev s) draw
  refine ⟨?_, ?_, ?_, ?_, ?_⟩
  · show (step_decide { sol with curr_result := some (sol.curr_result.getD (ev s)) }
        (sol.curr_result.getD (ev s))
        (retry_attempt_proposals sol.max_invalid_candidates gen ev s) draw).1.curr_iteration
        + 1 = sol.curr_iteration + 1
    rw [hf.1]
  · show (step_decide { sol with curr_result := some (sol.curr_result.getD (ev s)) }
        (sol.curr_result.getD (ev s))
        (retry_attempt_proposals sol.max_invalid_candidates gen ev s) draw).1.initial_demon_energy_max
        = sol.initial_demon_energy_max
    rw [hf.2.1]
  · show (step_decide { sol with curr_result := some (sol.curr_result.getD (ev s)) }
        (sol.curr_result.getD (ev s))
        (retry_attempt_proposals sol.max_invalid_candidates gen ev s) draw).1.reduction_factor
        = sol.reduction_factor
    rw [hf.2.2]
  · show (step_decide { sol with curr_result := some (sol.curr_result.getD (ev s)) }
        (sol.curr_result.getD (ev s))
        (retry_attempt_proposals sol.max_invalid_candidates gen ev s) draw).1.initial_demon_energy_max
        * (step_decide { sol with curr_result := some (sol.curr_result.getD (ev s)) }
          (sol.curr_result.getD (ev s))
          (retry_attempt_proposals sol.max_invalid_candidates gen ev s) draw).1.reduction_factor
        ^ (step_decide { sol with curr_result := some (sol.curr_result.getD (ev s)) }
          (sol.curr_result.getD (ev s))
          (retry_attempt_proposals sol.max_invalid_candidates gen ev s) draw).1.curr_iteration
        = sol.initial_demon_energy_max * sol.reduction_factor ^ sol.curr_iteration
    rw [hf.1, hf.2.1, hf.2.2]
  · exact update_demon_energy_max_le _

/-- Unfolding equation for `runSteps` (definitional). -/
theorem runSteps_succ {σ : Type}
    (ins : Nat → (Nat → Option (Move σ)) × (σ → EvalResult) × ℚ) (k : Nat)
    (p : Solver × σ) :
    runSteps ins (k + 1) p
      = ((step (runSteps ins k p).1 (ins k).1 (ins k).2.1 (ins k).2.2
            (runSteps ins k p).2).solver,
          (step (runSteps ins k p).1 (ins k).1 (ins k).2.1 (ins k).2.2
            (runSteps ins k p).2).state) :=
  rfl

/-- The iteration counter counts completed `step` calls. -/
theorem runSteps_curr_iteration {σ : Type}
    (ins : Nat → (Nat → Option (Move σ)) × (σ → EvalResult) × ℚ) :
    ∀ k (p : Solver × σ),
      (runSteps ins k p).1.curr_iteration = p.1.curr_iteration + k := by
  intro k
  induction k with
  | zero => intro p; rfl
  | succ k ih =>
    intro p
    rw [runSteps_succ]
    have h := (step_solver_fields (runSteps ins k p).1 (ins k).1 (ins k).2.1
      (ins k).2.2 (runSteps ins k p).2).1
    rw [h, ih p]
    omega

/-- The configured ceiling and reduction factor are run constants. -/
theorem runSteps_preserved {σ : Type}
    (ins : Nat → (Nat → Option (Move σ)) × (σ → EvalResult) × ℚ) :
    ∀ k (p : Solver × σ),
      (runSteps ins k p).1.initial_demon_energy_max
        = p.1.initial_demon_energy_max ∧
      (runSteps ins k p).1.reduction_factor = p.1.reduction_factor := by
  intro k
  induction k with
  | zero => intro p; exact ⟨rfl, rfl⟩
  | succ k ih =>
    intro p
    rw [runSteps_succ]
    have h := step_solver_fields (runSteps ins k p).1 (ins k).1 (ins k).2.1
      (ins k).2.2 (runSteps ins k p).2
    exact ⟨h.2.1.trans (ih p).1, h.2.2.1.trans (ih p).2⟩

/-! ## Energy-schedule claims -/

/-- Counterexample to C3 as stated: starting from reset with
`initial_demon_energy_max = 200` and `reduction_factor = 17/20`, after 1
completed `step` the ceiling is still `200` (the update uses the
pre-increment iteration count 0), not `200 * (17/20)^1`. -/
theorem demon_energy_max_decay_cex :
    (runSteps
        (fun _ => (fun _ => (none : Option (Move Nat)),
          fun _ => (⟨0, 0⟩ : EvalResult), (1 : ℚ)/2)) 1
        ((mkSolver 5 100 200 (17/20)).reset, (0 : Nat))).1.demon_energy_max
      = 200 ∧
    (200 : ℚ) ≠ (mkSolver 5 100 200 (17/20)).initial_demon_energy_max
      * (mkSolver 5 100 200 (17/20)).reduction_factor ^ 1 := by
  constructor
  · rw [runSteps_succ]
    rw [(step_solver_fields _ _ _ _ _).2.2.2.1]
    norm_num [runSteps, mkSolver, Solver.reset]
  · norm_num [mkSolver]

/-- Claim C3 (amended): for every run starting from `reset` and every
`k ≥ 1`, after `k` completed `step` calls the ceiling equals
`initial_demon_energy_max * reduction_factor ^ (k - 1)` (the per-step
update reads the iteration counter before it is incremented), and the
demon energy never exceeds the ceiling after the per-iteration update. -/
theorem demon_energy_max_decay {σ : Type} (sol : Solver)
    (ins : Nat → (Nat → Option (Move σ)) × (σ → EvalResult) × ℚ) (s : σ)
    (k : Nat) (hk : 1 ≤ k) :
    (runSteps ins k (sol.reset, s)).1.demon_energy_max
      = sol.initial_demon_energy_max * sol.reduction_factor ^ (k - 1) ∧
    (runSteps ins k (sol.reset, s)).1.demon_energy
      ≤ (runSteps ins k (sol.reset, s)).1.demon_energy_max := by
  obtain ⟨j, rfl⟩ : ∃ j, k = j + 1 := ⟨k - 1, by omega⟩
  have hq := runSteps_curr_iteration ins j (sol.reset, s)
  have hpre := runSteps_preserved ins j (sol.reset, s)
  have hstep := step_solver_fields (runSteps ins j (sol.reset, s)).1 (ins j).1
    (ins j).2.1 (ins j).2.2 (runSteps ins j (sol.reset, s)).2
  rw [runSteps_succ]
  refine ⟨?_, hstep.2.2.2.2⟩
  rw [hstep.2.2.2.1, hpre.1, hpre.2, hq]
  show sol.initial_demon_energy_max * sol.reduction_factor ^ (0 + j)
    = sol.initial_demon_energy_max * sol.reduction_factor ^ (j + 1 - 1)
  have he : 0 + j = j + 1 - 1 := by omega
  rw [he]

/-- Witness for C3's amended statement: after 2 completed steps the
ceiling is `200 * (17/20)^1` and the demon energy is at most the
ceiling. -/
theorem demon_energy_max_decay_witness :
    (runSteps
        (fun _ => (fun _ => (none : Option (Move Nat)),
          fun _ => (⟨0, 0⟩ : EvalResult), (1 : ℚ)/2)) 2
        ((mkSolver 5 100 200 (17/20)).reset, (0 : Nat))).1.demon_energy_max
      = (mkSolver 5 100 200 (17/20)).initial_demon_energy_max
        * (mkSolver 5 100 200 (17/20)).reduction_factor ^ (2 - 1) ∧
    (runSteps
        (fun _ => (fun _ => (none : Option (Move Nat)),
          fun _ => (⟨0, 0⟩ : EvalResult), (1 : ℚ)/2)) 2
        ((mkSolver 5 100 200 (17/20)).reset, (0 : Nat))).1.demon_energy
      ≤ (runSteps
        (fun _ => (fun _ => (none : Option (Move Nat)),
          fun _ => (⟨0, 0⟩ : EvalResult), (1 : ℚ)/2)) 2
        ((mkSolver 5 100 200 (17/20)).reset, (0 : Nat))).1.demon_energy_max :=
  demon_energy_max_decay (mkSolver 5 100 200 (17/20))
    (fun _ => (fun _ => (none : Option (Move Nat)),
      fun _ => (⟨0, 0⟩ : EvalResult), (1 : ℚ)/2)) (0 : Nat) 2 (by norm_num)

/-! ## Step atomicity and empty-generator claims -/

/-- The retry loop leaves the state untouched when it produced no result,
and otherwise leaves exactly the successfully applied candidate's
mutation, provided every generated move reverts to the exact pre-apply
state. -/
theorem retryAux_state {σ : Type} (maxInv : Nat)
    (gen : Nat → Option (Move σ)) (ev : σ → EvalResult)
    (hR : ∀ i m, gen i = some m → ∀ t : σ, m.revert (m.apply t).1 = t) :
    ∀ fuel idx lm lr s,
      ((retryAux maxInv gen ev fuel idx lm lr s).result = none →
        (retryAux maxInv gen ev fuel idx lm lr s).state = s) ∧
      (∀ r, (retryAux maxInv gen ev fuel idx lm lr s).result = some r →
        ∃ (i : Nat) (m : Move σ), gen i = some m ∧
          (retryAux maxInv gen ev fuel idx lm lr s).move = some m ∧
          m.apply s = ((retryAux maxInv gen ev fuel idx lm lr s).state, true)) := by
  intro fuel
  induction fuel with
  | zero =>
    intro idx lm lr s
    exact ⟨fun _ => rfl, fun r hr => by simp [retryAux] at hr⟩
  | succ fuel ih =>
    intro idx lm lr s
    cases hg : gen idx with
    | none =>
      rw [retryAux_none hg]
      exact ⟨fun _ => rfl, fun r hr => by simp at hr⟩
    | some m =>
      by_cases hmax : idx = maxInv
      · rw [retryAux_break hg hmax]
        exact ⟨fun _ => rfl, fun r hr => by simp at hr⟩
      · cases hs : (m.apply s).2 with
        | true =>
          rw [retryAux_success hg hmax hs]
          refine ⟨fun h => by simp at h, fun r hr => ⟨idx, m, hg, rfl, ?_⟩⟩
          exact Prod.ext rfl hs
        | false =>
          rw [retryAux_fail hg hmax hs, hR idx m hg s]
          exact ih (idx + 1) (some m) (some idx) s

/-- The previous lemma at the `retry_attempt_proposals` entry point. -/
theorem retry_attempt_proposals_state {σ : Type} (maxInv : Nat)
    (gen : Nat → Option (Move σ)) (ev : σ → EvalResult) (s : σ)
    (hR : ∀ i m, gen i = some m → ∀ t : σ, m.revert (m.apply t).1 = t) :
    ((retry_attempt_proposals maxInv gen ev s).result = none →
      (retry_attempt_proposals maxInv gen ev s).state = s) ∧
    (∀ r, (retry_attempt_proposals maxInv gen ev s).result = some r →
      ∃ (i : Nat) (m : Move σ), gen i = some m ∧
        (retry_attempt_proposals maxInv gen ev s).move = some m ∧
        m.apply s = ((retry_attempt_proposals maxInv gen ev s).state, true)) := by
  unfold retry_attempt_proposals
  exact retryAux_state maxInv gen ev hR (maxInv + 1) 0 none none s

/-- Claim C6: assuming `apply` is all-or-nothing and `revert` restores
the exact pre-apply state, a completed `step` returns a state that is
either the incoming (previously accepted) configuration or the newly
accepted configuration produced by the accepted move — never a partially
applied one. -/
theorem step_state_atomic {σ : Type} (sol : Solver)
    (gen : Nat → Option (Move σ)) (ev : σ → EvalResult) (draw : ℚ) (s : σ)
    (hA : ∀ i m, gen i = some m → ∀ t : σ,
      (m.apply t).2 = false → (m.apply t).1 = t)
    (hR : ∀ i m, gen i = some m → ∀ t : σ, m.revert (m.apply t).1 = t) :
    (step sol gen ev draw s).state = s ∨
    ∃ (m : Move σ) (t : σ), m.apply s = (t, true) ∧
      (step sol gen ev draw s).state = m.accept t := by
  have h := retry_attempt_proposals_state sol.max_invalid_candidates gen ev s hR
  rw [step_state_eq]
  cases hres : (retry_attempt_proposals sol.max_invalid_candidates gen ev s).result with
  | none =>
    left
    rw [step_decide_none hres]
    exact h.1 hres
  | some prop =>
    obtain ⟨i, m, hgen, hmove, happ⟩ := h.2 prop hres
    rw [step_decide_some hres]
    by_cases hb : (accept_move
        { sol with curr_result := some (sol.curr_result.getD (ev s)) }
        (sol.curr_result.getD (ev s))
        (calculate_delta_energy (sol.curr_result.getD (ev s)) prop) prop
        draw).2.accept
    · rw [if_pos hb]
      right
      refine ⟨m, (retry_attempt_proposals sol.max_invalid_candidates gen ev s).state,
        happ, ?_⟩
      show ((retry_attempt_proposals sol.max_invalid_candidates gen ev s).move.getD
          idMove).accept
          (retry_attempt_proposals sol.max_invalid_candidates gen ev s).state
        = m.accept (retry_attempt_proposals sol.max_invalid_candidates gen ev s).state
      rw [hmove]
      rfl
    · rw [if_neg hb]
      left
      show ((retry_attempt_proposals sol.max_invalid_candidates gen ev s).move.getD
          idMove).revert
          (retry_attempt_proposals sol.max_invalid_candidates gen ev s).state = s
      rw [hmove]
      have hst : (retry_attempt_proposals sol.max_invalid_candidates gen ev s).state
          = (m.apply s).1 := by
        rw [happ]
      rw [hst]
      show m.revert (m.apply s).1 = s
      exact hR i m hgen s

/-- A move that succeeds everywhere, increments the state and reverts by
decrementing. -/
def incMove : Move Nat :=
  ⟨fun s => (s + 1, true), fun s => s - 1, id⟩

/-- A generator yielding the increment move once. -/
def genInc : Nat → Option (Move Nat) :=
  fun i => if i = 0 then some incMove else none

/-- Witness for C6: a concrete step over a one-move generator lands in
the atomicity disjunction. -/
theorem step_state_atomic_witness :
    (step (mkSolver 5 100 200 (17/20)) genInc (fun _ => ⟨0, 0⟩) (1/2) 4).state = 4 ∨
    ∃ (m : Move Nat) (t : Nat), m.apply 4 = (t, true) ∧
      (step (mkSolver 5 100 200 (17/20)) genInc (fun _ => ⟨0, 0⟩) (1/2) 4).state
        = m.accept t := by
  have hA : ∀ i (m : Move Nat), genInc i = some m → ∀ t : Nat,
      (m.apply t).2 = false → (m.apply t).1 = t := by
    intro i m hm t hf
    unfold genInc at hm
    by_cases hi : i = 0
    · rw [if_pos hi] at hm
      injection hm with h2
      subst h2
      simp [incMove] at hf
    · rw [if_neg hi] at hm
      exact absurd hm (by simp)
  have hR : ∀ i (m : Move Nat), genInc i = some m → ∀ t : Nat,
      m.revert (m.apply t).1 = t := by
    intro i m hm t
    unfold genInc at hm
    by_cases hi : i = 0
    · rw [if_pos hi] at hm
      injection hm with h2
      subst h2
      simp [incMove]
    · rw [if_neg hi] at hm
      exact absurd hm (by simp)
  exact step_state_atomic (mkSolver 5 100 200 (17/20)) genInc (fun _ => ⟨0, 0⟩)
    (1/2) 4 hA hR

/-- Claim C10: with an empty proposal generator the retry loop returns
the triple `(None, None, None)` — the attempts-used component is `None`,
not 0 — and `step` records the null-acceptance entry, leaves the state
and the current evaluation result untouched, and still increments the
iteration counter. -/
theorem step_empty_generator {σ : Type} (sol : Solver)
    (gen : Nat → Option (Move σ)) (ev : σ → EvalResult) (draw : ℚ) (s : σ)
    (r : EvalResult) (hgen : gen 0 = none) (hcur : sol.curr_result = some r) :
    (retry_attempt_proposals sol.max_invalid_candidates gen ev s).move = none ∧
    (retry_attempt_proposals sol.max_invalid_candidates gen ev s).result = none ∧
    (retry_attempt_proposals sol.max_invalid_candidates gen ev s).retry = none ∧
    (step sol gen ev draw s).state = s ∧
    (step sol gen ev draw s).solver.curr_result = some r ∧
    (step sol gen ev draw s).solver.curr_iteration = sol.curr_iteration + 1 ∧
    (step sol gen ev draw s).record = nullAcceptRecord := by
  have hret : retry_attempt_proposals sol.max_invalid_candidates gen ev s
      = ⟨none, none, none, s, []⟩ := by
    unfold retry_attempt_proposals
    exact retryAux_none hgen
  have hres : (retry_attempt_proposals sol.max_invalid_candidates gen ev s).result
      = none := by rw [hret]
  refine ⟨by rw [hret], hres, by rw [hret], ?_, ?_, ?_, ?_⟩
  · rw [step_state_eq, step_decide_none hres, hret]
  · rw [step_solver_eq]
    show (step_decide { sol with curr_result := some (sol.curr_result.getD (ev s)) }
        (sol.curr_result.getD (ev s))
        (retry_attempt_proposals sol.max_invalid_candidates gen ev s) draw).1.curr_result
      = some r
    rw [step_decide_none hres]
    show some (sol.curr_result.getD (ev s)) = some r
    rw [hcur]
    rfl
  · exact (step_solver_fields sol gen ev draw s).1
  · rw [step_record_eq, step_decide_none hres]

/-- Witness for C10: a concrete empty-generator step. -/
theorem step_empty_generator_witness :
    (retry_attempt_proposals
        ({ mkSolver 5 100 200 (17/20) with
          curr_result := some ⟨3, 0⟩ }).max_invalid_candidates
        (fun _ => (none : Option (Move Nat))) (fun _ => ⟨0, 0⟩) 7).retry = none ∧
    (step { mkSolver 5 100 200 (17/20) with curr_result := some ⟨3, 0⟩ }
        (fun _ => (none : Option (Move Nat))) (fun _ => ⟨0, 0⟩) (1/2) 7).state = 7 ∧
    (step { mkSolver 5 100 200 (17/20) with curr_result := some ⟨3, 0⟩ }
        (fun _ => (none : Option (Move Nat))) (fun _ => ⟨0, 0⟩) (1/2)
          7).solver.curr_result = some ⟨3, 0⟩ ∧
    (step { mkSolver 5 100 200 (17/20) with curr_result := some ⟨3, 0⟩ }
        (fun _ => (none : Option (Move Nat))) (fun _ => ⟨0, 0⟩) (1/2)
          7).solver.curr_iteration
      = ({ mkSolver 5 100 200 (17/20) with curr_result := some ⟨3, 0⟩ }).curr_iteration
        + 1 ∧
    (step { mkSolver 5 100 200 (17/20) with curr_result := some ⟨3, 0⟩ }
        (fun _ => (none : Option (Move Nat))) (fun _ => ⟨0, 0⟩) (1/2) 7).record
      = nullAcceptRecord := by
  have h := step_empty_generator
    { mkSolver 5 100 200 (17/20) with curr_result := some ⟨3, 0⟩ }
    (fun _ => (none : Option (Move Nat))) (fun _ => ⟨0, 0⟩) (1/2) 7 ⟨3, 0⟩
    rfl rfl
  exact ⟨h.2.2.1, h.2.2.2.1, h.2.2.2.2.1, h.2.2.2.2.2.1, h.2.2.2.2.2.2⟩

end Annealing
